import Mathlib

/-!
Shallow embedding of the tplutil Go package (util.go and the SparseTemplate
variant), with theorems about the whitespace stripper Strip, the registered
last predicate, ExecuteToString, SparseTemplate and ParseGlob.

Strings are modelled as Lean String, which is a list of characters.  The Go
code works on UTF-8 strings; every character the regular expression in
question can inspect is ASCII, so the character-level model is exact.
-/

namespace Tplutil

/-- The Go regexp character class denoted by a backslash followed by s,
which is exactly the set of the five ASCII characters space, tab, newline,
form feed and carriage return (Perl character classes of regexp/syntax;
no Unicode spaces, no vertical tab). -/
def isGoSpace (c : Char) : Bool :=
  c == ' ' || c == '\t' || c == '\n' || c == '\x0c' || c == '\r'

/-- Core of Strip from util.go:

      var reInsignificantWhitespace = regexp.MustCompile("(?m)\n?^\\s*")

      func Strip(text string) string {
        return reInsignificantWhitespace.ReplaceAllString(text, "")
      }

ReplaceAllString with an empty replacement deletes every match of the scan
Go performs: repeatedly take the leftmost match at or after the current
position, delete it, and continue right after it, advancing one character
whenever the match was empty.  Under (?m), the anchor matches at position 0
and right after every newline.  At a position p the pattern (an optional
newline, a multiline line-start anchor, then a greedy run of whitespace)
matches as follows:

- if the character at p is a newline, the optional newline consumes it, the
  anchor holds right after a newline, and the greedy run consumes the
  maximal whitespace run that follows; the match is nonempty;
- otherwise the optional newline matches the empty string and the anchor
  must already hold at p (p is 0 or follows a newline); the greedy run then
  consumes the maximal whitespace run starting at p, which is empty exactly
  when the character at p is not whitespace.  Empty matches delete nothing.

Hence the deleted characters are exactly: the maximal whitespace run at the
start of the text, and, for every newline character, that newline together
with the maximal whitespace run following it.  A whitespace character that
is not reachable from the text start or from some newline through a pure
whitespace run is preceded by a non-whitespace character, where the anchor
fails, so it is never deleted.

stripAux walks the characters once.  The flag is true exactly when the
current position is at the text start or still inside the reach of such a
deleted run; in that state every whitespace character is deleted and the
state persists, while a newline (re)enters that state from anywhere. -/
def stripAux : Bool → List Char → List Char
  | _, [] => []
  | dropping, c :: rest =>
    if c = '\n' then stripAux true rest
    else if dropping && isGoSpace c then stripAux true rest
    else c :: stripAux false rest

/-- Strip from util.go (lines 62-64): delete every match of the regular
expression reInsignificantWhitespace, as derived in stripAux. -/
def Strip (text : String) : String :=
  ⟨stripAux true text.data⟩

/-- Go panics are modelled explicitly: a computation either panics with a
message or returns a value. -/
inductive PanicOr (α : Type) where
  | panicked : String → PanicOr α
  | ok : α → PanicOr α
deriving DecidableEq

/-- The function registered under the name "last" (util.go lines 56-60 and
the SparseTemplate variant lines 65-69):

      func(x int, a interface{}) bool {
        return x == reflect.ValueOf(a).Len()-1
      }

Go int is modelled as Int (the lengths involved never overflow 64 bits).
The length argument is the result of reflection on the value a. -/
def lastGo (x : Int) (n : Nat) : Bool :=
  x == (n : Int) - 1

/-- A call of the registered last function.  The second Go argument is any
value; reflect.ValueOf(a).Len() yields its length when the kind of a
supports Len and panics otherwise, modelled by an Option Nat: some n is a
value of length n, none is a value whose kind does not support Len. -/
def lastCall (x : Int) (len : Option Nat) : PanicOr Bool :=
  match len with
  | none => PanicOr.panicked "reflect: call of reflect.Value.Len on invalid type"
  | some n => PanicOr.ok (lastGo x n)

/-- Modelled from the spec: the execution of a compiled template of the
external engine (text/template) against a fixed data value is characterized
by the output it writes to the supplied sink before returning and by the
error value it returns; the partial output written before a failure is in
the sink when Execute returns.  The engine itself is the external
collaborator and is not re-implemented. -/
structure Execution where
  out : String
  err : Option String

/-- tpl.Execute(buf, v) of the external engine: append the produced output
to the buffer and return the error value. -/
def engineExecute (e : Execution) (buf : String) : String × Option String :=
  (buf ++ e.out, e.err)

/-- ExecuteToString from util.go (lines 69-74): execute into a fresh empty
buffer and return the buffer contents together with the error:

      func ExecuteToString(tpl *template.Template, v interface{}) (string, error) {
        buf := &bytes.Buffer{}
        err := tpl.Execute(buf, v)
        return buf.String(), err
      }
-/
def ExecuteToString (e : Execution) : String × Option String :=
  engineExecute e ""

/-- The wrapper type of the SparseTemplate variant:
type Template struct { *template.Template }.  The embedded compiled
template is modelled by its execution behaviour. -/
structure Template where
  inner : Execution

/-- The Execute method of the wrapper (SparseTemplate variant, lines 83-92):

      func (t *Template) Execute(v interface{}) (string, error) {
        buf := &bytes.Buffer{}
        err := t.Template.Execute(buf, v)
        if err != nil {
          panic(err)
        }
        return buf.String(), err
      }

On an execution error it panics; otherwise it returns the buffer contents
(the returned error is nil there). -/
def Template.Execute (t : Template) : PanicOr String :=
  let r := engineExecute t.inner ""
  match r.2 with
  | some e => PanicOr.panicked e
  | none => PanicOr.ok r.1

/-- The identity of a compiled template as produced by SparseTemplate: the
name it was created under, the names of the registered functions, and the
source text that was parsed. -/
structure CompiledTpl where
  tplName : String
  funcNames : List String
  src : String
deriving DecidableEq

/-- SparseTemplate from the variant file (lines 62-76):

      func SparseTemplate(name, text string) *Template {
        stripped := reInsignificantWhitespace.ReplaceAllString(text, "")
        funcs := template.FuncMap{ "last": ... }
        tpl := &Template{
          template.Must(template.New("comment").Funcs(funcs).Parse(stripped)),
        }
        return tpl
      }

Parsing by the external engine is abstracted by the oracle parse, giving
the error message that Parse reports on a given source text, none on
success; template.Must panics on a parse error.  Note the template is
created by template.New("comment"), not template.New(name). -/
def SparseTemplate (parse : String → Option String) (name text : String) :
    PanicOr CompiledTpl :=
  let stripped := Strip text
  match parse stripped with
  | some e => PanicOr.panicked e
  | none => PanicOr.ok { tplName := "comment", funcNames := ["last"], src := stripped }

/-- filepath.Base for slash-separated paths, as in the Go standard library:
empty path gives ".", trailing separators are stripped, the last path
element is returned, and a path of only separators gives "/". -/
def filepathBase (p : String) : String :=
  if p = "" then "."
  else
    let r := p.data.reverse.dropWhile (fun c => c == '/')
    if r = [] then "/"
    else ⟨(r.takeWhile (fun c => c != '/')).reverse⟩

/-- A template set of the external engine as ParseGlob uses it: the name of
the primary handle plus the named sub-templates defined so far (name and
parsed source).  tpl.New(name) shares the set, and a successful Parse on a
handle associates the source under the handle name, replacing any previous
association. -/
structure GoTpl where
  name : String
  subs : List (String × String)
deriving DecidableEq

/-- The errors ParseGlob can return, in structured form: an error of
filepath.Glob itself (malformed pattern), the no-files error built by
fmt.Errorf("template: pattern matches no files: %#q", pattern), a file
read error, and a parse error of the engine. -/
inductive GoErr where
  | globErr : String → GoErr
  | noFiles : String → GoErr
  | readErr : String → GoErr
  | parseErr : String → GoErr
deriving DecidableEq

/-- The environment ParseGlob runs against: the result of filepath.Glob on
a pattern, the result of ioutil.ReadFile on a filename, and the engine
parse oracle (error message on failure, none on success). -/
structure Env where
  glob : String → Except String (List String)
  read : String → Except String String
  parse : String → Option String

/-- Associate key k with value v in an association list, replacing an
existing binding of k (map assignment of the engine template set). -/
def upsert : List (String × String) → String → String → List (String × String)
  | [], k, v => [(k, v)]
  | (k', v') :: t, k, v =>
    if k' = k then (k, v) :: t else (k', v') :: upsert t k v

/-- The for-loop of ParseGlob (variant of util.go, lines 165-186), over the
filenames the glob matched.  The state is the Go local variable tpl: none
when still nil, some t when it points to the set t.  Per file: read it
(abort on error), strip it, take the base filename as name, create the set
if tpl is still nil, and parse the stripped source on the handle of that
name (abort on error, otherwise the source is associated under the name).
Which handle is used (tpl itself when the name equals the primary name, a
tpl.New(name) handle otherwise) only determines the association name,
which is the base filename either way. -/
def parseGlobLoop (env : Env) : Option GoTpl → List String → Option GoTpl × Option GoErr
  | tpl, [] => (tpl, none)
  | tpl, filename :: rest =>
    match env.read filename with
    | Except.error e => (tpl, some (GoErr.readErr e))
    | Except.ok b =>
      let s := Strip b
      let name := filepathBase filename
      let t := tpl.getD { name := name, subs := [] }
      match env.parse s with
      | some e => (some t, some (GoErr.parseErr e))
      | none => parseGlobLoop env (some { t with subs := upsert t.subs name s }) rest

/-- The outcome of ParseGlob: ret and err are the two Go return values
(ret is none exactly when Go returns a nil template), and state is the
final value of the template set variable, which is the set the caller
passed in when it passed a non-nil one (observable by the caller through
its own pointer even when ParseGlob returns nil and an error). -/
structure GlobResult where
  ret : Option GoTpl
  err : Option GoErr
  state : Option GoTpl
deriving DecidableEq

/-- ParseGlob from the variant of util.go (lines 155-187):

      func ParseGlob(tpl *template.Template, pattern string) (*template.Template, error) {
        filenames, err := filepath.Glob(pattern)
        if err != nil { return nil, err }
        if len(filenames) == 0 {
          return nil, fmt.Errorf("template: pattern matches no files: %#q", pattern)
        }
        for _, filename := range filenames { ... }
        return tpl, nil
      }
-/
def ParseGlob (env : Env) (tpl : Option GoTpl) (pattern : String) : GlobResult :=
  match env.glob pattern with
  | Except.error e => { ret := none, err := some (GoErr.globErr e), state := tpl }
  | Except.ok filenames =>
    if filenames.isEmpty then
      { ret := none, err := some (GoErr.noFiles pattern), state := tpl }
    else
      match parseGlobLoop env tpl filenames with
      | (st, some e) => { ret := none, err := some e, state := st }
      | (st, none) => { ret := st, err := none, state := st }

/-- The error the processing of a single matched file produces, if any:
a read error of the file, else a parse error of its stripped contents. -/
def fileError (env : Env) (f : String) : Option GoErr :=
  match env.read f with
  | Except.error e => some (GoErr.readErr e)
  | Except.ok b => (env.parse (Strip b)).map GoErr.parseErr

/-- The effect of successfully processing one matched file on a template
set: associate the stripped contents under the base filename.  (Left
unchanged on a read failure; it is only used for files that succeed.) -/
def addFile (env : Env) (t : GoTpl) (f : String) : GoTpl :=
  match env.read f with
  | Except.ok b => { t with subs := upsert t.subs (filepathBase f) (Strip b) }
  | Except.error _ => t

/-- The error ParseGlob is expected to return, per the amended reading of
the spec: the glob error itself for a malformed pattern, the no-files
error naming the pattern when the glob matches nothing, and otherwise the
error of the first failing matched file, none when all files succeed. -/
def globExpectedErr (env : Env) (pattern : String) : Option GoErr :=
  match env.glob pattern with
  | Except.error e => some (GoErr.globErr e)
  | Except.ok files =>
    if files.isEmpty then some (GoErr.noFiles pattern)
    else files.findSome? (fileError env)

/-- Horizontal whitespace in the ordinary sense of the words: space and
tab.  (This is what the spec sentence for Strip literally asks for.) -/
def isHorizontalSpace (c : Char) : Bool :=
  c == ' ' || c == '\t'

/-- The transform the spec describes for Strip, parametrized by the class
w of characters that count as the whitespace removed after a newline:
every occurrence of a newline is removed together with the maximal run of
w-characters that follows it at the start of the next line.  Runs removed
at distinct newlines of the input are disjoint unless one newline lies in
the run of another, in which case a single pass through this function
removes exactly the union, so the left-to-right pass renders the
simultaneous description of the spec faithfully. -/
def specStripWith (w : Char → Bool) : List Char → List Char
  | [] => []
  | c :: rest =>
    if c = '\n' then specStripWith w (rest.dropWhile w)
    else c :: specStripWith w rest
termination_by l => l.length
decreasing_by
  · exact Nat.lt_succ_of_le (List.dropWhile_sublist (l := rest) w).length_le
  · exact Nat.lt_succ_self _

/-- The Strip transform exactly as the spec words it: remove each newline
together with the run of horizontal whitespace at the start of the next
line, and remove leading whitespace at the very start of the string. -/
def specStrip (s : String) : String :=
  ⟨specStripWith isHorizontalSpace (s.data.dropWhile isHorizontalSpace)⟩

/-- The same spec transform with the whitespace class corrected to the Go
class of the source regex: space, tab, newline, form feed, carriage
return. -/
def specStripGo (s : String) : String :=
  ⟨specStripWith isGoSpace (s.data.dropWhile isGoSpace)⟩

/-- A structural evaluator for specStripWith, mirroring stripAux but
parametric in the whitespace class; proven below to agree with
specStripWith, it lets concrete spec values be computed by the kernel. -/
def stripAuxW (w : Char → Bool) : Bool → List Char → List Char
  | _, [] => []
  | dropping, c :: rest =>
    if c = '\n' then stripAuxW w true rest
    else if dropping && w c then stripAuxW w true rest
    else c :: stripAuxW w false rest

/-- A string with every whitespace character (Go class) removed; used to
state that Strip never touches non-whitespace content. -/
def removeWhitespace (s : String) : String :=
  ⟨s.data.filter (fun c => !isGoSpace c)⟩

/-- The failure condition claimed for ParseGlob taken as stated: the glob
pattern matches zero files, or some matched file cannot be read or its
stripped contents fail to parse.  (A malformed pattern, where the glob
itself reports an error and matches no list of files at all, satisfies
neither disjunct.) -/
def specC7Cond (env : Env) (pattern : String) : Prop :=
  env.glob pattern = Except.ok [] ∨
  ∃ files, env.glob pattern = Except.ok files ∧ ∃ f, f ∈ files ∧ fileError env f ≠ none

/-- A concrete environment whose glob reports a malformed pattern. -/
def envBadPattern : Env where
  glob := fun _ => Except.error "syntax error in pattern"
  read := fun _ => Except.ok ""
  parse := fun _ => none

/-- A concrete environment with two matched files, the second of which
fails to parse. -/
def envC10 : Env where
  glob := fun _ => Except.ok ["a.tpl", "bad.tpl"]
  read := fun f => if f = "a.tpl" then Except.ok "hello" else Except.ok "oops"
  parse := fun s => if s = "oops" then some "parse fail" else none

/-! ## Helper lemmas about the stripper -/

theorem stripAux_no_newline (b : Bool) (l : List Char) : '\n' ∉ stripAux b l := by
  induction l generalizing b with
  | nil => simp [stripAux]
  | cons c rest ih =>
    simp only [stripAux]
    split_ifs with h1 h2
    · exact ih true
    · exact ih true
    · intro hmem
      rcases List.mem_cons.mp hmem with h | h
      · exact h1 h.symm
      · exact ih false h

theorem stripAux_false_id (l : List Char) (h : '\n' ∉ l) : stripAux false l = l := by
  induction l with
  | nil => rfl
  | cons c rest ih =>
    have hc : ¬(c = '\n') := by
      intro hc
      exact h (by rw [hc]; exact List.mem_cons_self _ _)
    have h' : '\n' ∉ rest := fun hm => h (List.mem_cons_of_mem c hm)
    simp [stripAux, hc, ih h']

theorem stripAux_true_head (l : List Char) (c : Char) (t : List Char)
    (h : stripAux true l = c :: t) : isGoSpace c = false := by
  induction l with
  | nil => exact absurd h (by simp [stripAux])
  | cons c0 rest ih =>
    by_cases h1 : c0 = '\n'
    · exact ih (by simpa [stripAux, h1] using h)
    · by_cases h2 : isGoSpace c0 = true
      · exact ih (by simpa [stripAux, h1, h2] using h)
      · simp only [Bool.not_eq_true] at h2
        rw [show stripAux true (c0 :: rest) = c0 :: stripAux false rest from by
          simp [stripAux, h1, h2]] at h
        injection h with hc ht
        rw [← hc]
        exact h2

theorem strip_list_idem (l : List Char) :
    stripAux true (stripAux true l) = stripAux true l := by
  cases h : stripAux true l with
  | nil => rfl
  | cons c t =>
    have hc : isGoSpace c = false := stripAux_true_head l c t h
    have hnl : '\n' ∉ c :: t := h ▸ stripAux_no_newline true l
    have hcn : ¬(c = '\n') := by
      intro e
      rw [e] at hc
      exact absurd hc (by simp [isGoSpace])
    have ht : '\n' ∉ t := fun hm => hnl (List.mem_cons_of_mem c hm)
    simp [stripAux, hcn, hc, stripAux_false_id t ht]

theorem stripAux_filter (b : Bool) (l : List Char) :
    (stripAux b l).filter (fun c => !isGoSpace c) = l.filter (fun c => !isGoSpace c) := by
  induction l generalizing b with
  | nil => rfl
  | cons c rest ih =>
    by_cases h1 : c = '\n'
    · subst h1
      have hnl : isGoSpace '\n' = true := by decide
      simp [stripAux, ih true, List.filter_cons, hnl]
    · by_cases h2 : isGoSpace c = true
      · cases b with
        | true => simp [stripAux, h1, h2, ih true, List.filter_cons]
        | false => simp [stripAux, h1, h2, ih false, List.filter_cons]
      · simp only [Bool.not_eq_true] at h2
        simp [stripAux, h1, h2, ih false, List.filter_cons]

theorem stripAux_eq_W (b : Bool) (l : List Char) :
    stripAux b l = stripAuxW isGoSpace b l := by
  induction l generalizing b with
  | nil => rfl
  | cons c rest ih =>
    simp only [stripAux, stripAuxW]
    split_ifs <;> simp [ih]

theorem stripAuxW_spec (w : Char → Bool) (l : List Char) :
    stripAuxW w false l = specStripWith w l ∧
    stripAuxW w true l = specStripWith w (l.dropWhile w) := by
  induction l with
  | nil => exact ⟨by simp [stripAuxW, specStripWith], by simp [stripAuxW, specStripWith]⟩
  | cons c t ih =>
    by_cases h1 : c = '\n'
    · subst h1
      have e1 : specStripWith w ('\n' :: t) = specStripWith w (t.dropWhile w) := by
        simp [specStripWith]
      have e2 : specStripWith w (List.dropWhile w ('\n' :: t))
          = specStripWith w (t.dropWhile w) := by
        by_cases hw : w '\n' = true
        · simp [List.dropWhile, hw]
        · simp only [Bool.not_eq_true] at hw
          simp [List.dropWhile, hw, e1]
      refine ⟨?_, ?_⟩
      · simpa [stripAuxW, e1] using ih.2
      · simpa [stripAuxW, e2] using ih.2
    · by_cases h2 : w c = true
      · have e1 : specStripWith w (c :: t) = c :: specStripWith w t := by
          simp [specStripWith, h1]
        have e2 : List.dropWhile w (c :: t) = t.dropWhile w := by
          simp [List.dropWhile, h2]
        refine ⟨?_, ?_⟩
        · simpa [stripAuxW, h1, h2, e1] using ih.1
        · simpa [stripAuxW, h1, h2, e2] using ih.2
      · simp only [Bool.not_eq_true] at h2
        have e1 : specStripWith w (c :: t) = c :: specStripWith w t := by
          simp [specStripWith, h1]
        have e2 : List.dropWhile w (c :: t) = c :: t := by
          simp [List.dropWhile, h2]
        refine ⟨?_, ?_⟩
        · simpa [stripAuxW, h1, h2, e1] using ih.1
        · simpa [stripAuxW, h1, h2, e2, e1] using ih.1

/-! ## Claim theorems about the stripper -/

/-- C1 (counterexample): the claim describes the whitespace removed after a
newline as horizontal whitespace, but the source regex uses the Go class,
which also contains the form feed character; on the input a, newline, form
feed, b the code removes the form feed while the claimed transform keeps
it. -/
theorem strip_ne_specStrip_horizontal :
    Strip ⟨['a', '\n', '\x0c', 'b']⟩ ≠ specStrip ⟨['a', '\n', '\x0c', 'b']⟩ := by
  intro h
  have hW := (stripAuxW_spec isHorizontalSpace ['a', '\n', '\x0c', 'b']).2
  have hR : specStrip ⟨['a', '\n', '\x0c', 'b']⟩ = ⟨['a', '\x0c', 'b']⟩ := by
    refine ((congrArg String.mk hW).symm.trans ?_).symm.symm
    decide
  have hL : Strip ⟨['a', '\n', '\x0c', 'b']⟩ = ⟨['a', 'b']⟩ := by decide
  rw [hL, hR] at h
  exact absurd h (by decide)

/-- C1 (amended): for every input string, Strip removes the maximal run of
whitespace characters at the very start of the string and removes every
occurrence of a newline character together with the maximal run of
whitespace characters immediately following it, where whitespace means the
class of the source regex: space, tab, newline, form feed and carriage
return (not merely horizontal whitespace). -/
theorem strip_eq_specStripGo (s : String) : Strip s = specStripGo s := by
  have hb := stripAux_eq_W true s.data
  have h := (stripAuxW_spec isGoSpace s.data).2
  exact congrArg String.mk (hb.trans h)

/-- C2: Strip is idempotent: stripping an already-stripped string returns
it unchanged, for all inputs. -/
theorem strip_idempotent (s : String) : Strip (Strip s) = Strip s :=
  congrArg String.mk (strip_list_idem s.data)

/-- C3: Strip preserves non-whitespace content: the stripped output with
all whitespace characters removed equals the input with all whitespace
characters removed (whitespace being the class of the source regex). -/
theorem strip_preserves_content (s : String) :
    removeWhitespace (Strip s) = removeWhitespace s :=
  congrArg String.mk (stripAux_filter true s.data)

/-! ## The last predicate -/

/-- C4: for every non-negative index x and every value introspectable for
length, the registered last function returns true exactly when x equals
the length minus one. -/
theorem last_true_iff (x : Int) (n : Nat) (hx : 0 ≤ x) :
    lastCall x (some n) = PanicOr.ok true ↔ x = (n : Int) - 1 := by
  simp only [lastCall, lastGo, PanicOr.ok.injEq, beq_iff_eq]

/-- Witness for C4 at index 2 and length 3. -/
theorem last_true_iff_witness : lastCall 2 (some 3) = PanicOr.ok true :=
  (last_true_iff 2 3 (by decide)).mpr (by decide)

/-- C5 (counterexample): on a sequence of length 0, a call of the last
predicate at index 0 does not error: reflection happily reports length 0
and the function returns 0 == -1, that is false. -/
theorem lastCall_empty_returns_ok : lastCall 0 (some 0) = PanicOr.ok false := by
  decide

/-- C5 (amended): for a sequence of length 0, the last predicate returns
false for every non-negative index and the call does not error; the
length-minus-one comparison is against -1, which no non-negative index
equals. -/
theorem lastCall_empty_false (x : Int) (hx : 0 ≤ x) :
    lastCall x (some 0) = PanicOr.ok false := by
  simp only [lastCall, lastGo, PanicOr.ok.injEq]
  rw [beq_eq_false_iff_ne]
  omega

/-- Witness for the amended C5 at index 5. -/
theorem lastCall_empty_false_witness : lastCall 5 (some 0) = PanicOr.ok false :=
  lastCall_empty_false 5 (by decide)

/-! ## ExecuteToString and the panicking Execute -/

theorem string_empty_append (s : String) : "" ++ s = s := by
  obtain ⟨d⟩ := s
  rfl

/-- C6: ExecuteToString returns exactly the output the engine buffered
before returning together with the execution error: when execution fails
with an error, the partial output is returned alongside the error rather
than discarded. -/
theorem executeToString_keeps_output (e : Execution) (msg : String)
    (h : e.err = some msg) : ExecuteToString e = (e.out, some msg) := by
  unfold ExecuteToString engineExecute
  rw [string_empty_append, h]

/-- Witness for C6: a template writing partial output and then failing. -/
theorem executeToString_keeps_output_witness :
    ExecuteToString { out := "partial", err := some "boom" } = ("partial", some "boom") :=
  executeToString_keeps_output { out := "partial", err := some "boom" } "boom" rfl

/-- C8: the wrapped Execute of the SparseTemplate variant escalates every
execution failure to a panic carrying that error instead of returning it,
returns the rendered output as a string on success, and the underlying
engine Execute (the escape hatch) still returns the buffered output
together with the error as a value. -/
theorem template_execute_escalation (t : Template) :
    (∀ msg, t.inner.err = some msg → Template.Execute t = PanicOr.panicked msg) ∧
    (t.inner.err = none → Template.Execute t = PanicOr.ok t.inner.out) ∧
    engineExecute t.inner "" = (t.inner.out, t.inner.err) := by
  refine ⟨?_, ?_, ?_⟩
  · intro msg h
    unfold Template.Execute engineExecute
    rw [h]
  · intro h
    unfold Template.Execute engineExecute
    rw [h, string_empty_append]
  · unfold engineExecute
    rw [string_empty_append]

/-- Witness for C8: a failing execution panics with the engine error. -/
theorem template_execute_escalation_witness :
    Template.Execute { inner := { out := "out", err := some "boom" } }
      = PanicOr.panicked "boom" :=
  (template_execute_escalation { inner := { out := "out", err := some "boom" } }).1
    "boom" rfl

/-! ## SparseTemplate -/

/-- C9: SparseTemplate ignores its name argument: for any two names and
the same text it builds the same result, and the compiled template it
returns on success is created under the fixed name comment. -/
theorem sparseTemplate_fixed_name (parse : String → Option String)
    (n1 n2 text : String) :
    SparseTemplate parse n1 text = SparseTemplate parse n2 text ∧
    ∀ r, SparseTemplate parse n1 text = PanicOr.ok r → r.tplName = "comment" := by
  constructor
  · rfl
  · intro r h
    simp only [SparseTemplate] at h
    cases hp : parse (Strip text) with
    | some e =>
      rw [hp] at h
      have h2 : PanicOr.panicked (α := CompiledTpl) e = PanicOr.ok r := h
      exact PanicOr.noConfusion h2
    | none =>
      rw [hp] at h
      have h2 : PanicOr.ok (CompiledTpl.mk "comment" ["last"] (Strip text))
          = PanicOr.ok r := h
      injection h2 with h3
      rw [← h3]

/-- Witness for C9 at two distinct names and an always-succeeding parse. -/
theorem sparseTemplate_fixed_name_witness :
    CompiledTpl.tplName { tplName := "comment", funcNames := ["last"], src := "x" }
      = "comment" :=
  (sparseTemplate_fixed_name (fun _ => none) "a" "b" "x").2
    { tplName := "comment", funcNames := ["last"], src := "x" } rfl

/-! ## ParseGlob lemmas -/

theorem parseGlobLoop_snd (env : Env) (files : List String) :
    ∀ tpl, (parseGlobLoop env tpl files).2 = files.findSome? (fileError env) := by
  induction files with
  | nil => intro tpl; rfl
  | cons f rest ih =>
    intro tpl
    cases hr : env.read f with
    | error e => simp [parseGlobLoop, hr, List.findSome?, fileError]
    | ok b =>
      cases hp : env.parse (Strip b) with
      | some e => simp [parseGlobLoop, hr, hp, List.findSome?, fileError]
      | none => simp [parseGlobLoop, hr, hp, List.findSome?, fileError, ih]

theorem parseGlobLoop_some (env : Env) (files : List String) :
    ∀ t : GoTpl, (parseGlobLoop env (some t) files).1.isSome := by
  induction files with
  | nil => intro t; rfl
  | cons f rest ih =>
    intro t
    cases hr : env.read f with
    | error e => simp [parseGlobLoop, hr]
    | ok b =>
      cases hp : env.parse (Strip b) with
      | some e => simp [parseGlobLoop, hr, hp]
      | none => simp [parseGlobLoop, hr, hp, ih]

theorem parseGlobLoop_ok_isSome (env : Env) (f : String) (rest : List String)
    (tpl : Option GoTpl) (h : (parseGlobLoop env tpl (f :: rest)).2 = none) :
    (parseGlobLoop env tpl (f :: rest)).1.isSome := by
  cases hr : env.read f with
  | error e => simp [parseGlobLoop, hr] at h
  | ok b =>
    cases hp : env.parse (Strip b) with
    | some e => simp [parseGlobLoop, hr, hp] at h
    | none =>
      simp only [parseGlobLoop, hr, hp] at h ⊢
      exact parseGlobLoop_some env rest _

theorem parseGlobLoop_front_ok (env : Env) (pre : List String) :
    ∀ (t : GoTpl) (rest : List String), (∀ g ∈ pre, fileError env g = none) →
      parseGlobLoop env (some t) (pre ++ rest)
        = parseGlobLoop env (some (pre.foldl (addFile env) t)) rest := by
  induction pre with
  | nil => intro t rest _; rfl
  | cons g pre' ih =>
    intro t rest hpre
    have hg : fileError env g = none := hpre g (List.mem_cons_self g pre')
    have hpre' : ∀ x ∈ pre', fileError env x = none :=
      fun x hx => hpre x (List.mem_cons_of_mem g hx)
    cases hr : env.read g with
    | error e => simp [fileError, hr] at hg
    | ok b =>
      have hp : env.parse (Strip b) = none := by
        simpa [fileError, hr] using hg
      have ha : addFile env t g = { t with subs := upsert t.subs (filepathBase g) (Strip b) } := by
        simp [addFile, hr]
      calc parseGlobLoop env (some t) ((g :: pre') ++ rest)
          = parseGlobLoop env
              (some { t with subs := upsert t.subs (filepathBase g) (Strip b) })
              (pre' ++ rest) := by
            simp only [List.cons_append, parseGlobLoop, hr, hp, Option.getD_some,
              List.append_eq]
        _ = parseGlobLoop env
              (some (pre'.foldl (addFile env)
                { t with subs := upsert t.subs (filepathBase g) (Strip b) }))
              rest := ih _ rest hpre'
        _ = parseGlobLoop env (some (List.foldl (addFile env) t (g :: pre'))) rest := by
            rw [List.foldl_cons, ha]

/-! ## Claim theorems about ParseGlob -/

/-- C7 (counterexample): a malformed glob pattern makes ParseGlob return
an error although the pattern does not match zero files (the glob reports
an error instead of a list of matches, so no matched file fails either),
and that error is not the no-files error naming the pattern. -/
theorem parseGlob_badPattern_counterexample :
    (ParseGlob envBadPattern none "[").err
        = some (GoErr.globErr "syntax error in pattern") ∧
    (ParseGlob envBadPattern none "[").err ≠ some (GoErr.noFiles "[") ∧
    ¬ specC7Cond envBadPattern "[" := by
  refine ⟨rfl, by decide, ?_⟩
  intro hc
  rcases hc with h | ⟨files, hf, _⟩
  · simp [envBadPattern] at h
  · simp [envBadPattern] at hf

/-- C7 (amended): ParseGlob returns an error, and then a nil template,
exactly when the glob pattern itself is malformed (that glob error is
returned), when the pattern matches zero files (the error names the
pattern), or when some matched file cannot be read or its stripped content
fails to parse; the error returned is the first one in file order, so the
first failure aborts the remaining files. -/
theorem parseGlob_error_characterization (env : Env) (tpl : Option GoTpl)
    (pattern : String) :
    (ParseGlob env tpl pattern).err = globExpectedErr env pattern ∧
    ((ParseGlob env tpl pattern).ret = none ↔ ((ParseGlob env tpl pattern).err).isSome) := by
  cases hg : env.glob pattern with
  | error e => simp [ParseGlob, globExpectedErr, hg]
  | ok files =>
    cases files with
    | nil => simp [ParseGlob, globExpectedErr, hg]
    | cons f rest =>
      have hsnd := parseGlobLoop_snd env (f :: rest) tpl
      rcases h : parseGlobLoop env tpl (f :: rest) with ⟨st, e?⟩
      rw [h] at hsnd
      simp only [] at hsnd
      cases e? with
      | some e =>
        refine ⟨?_, ?_⟩
        · simp [ParseGlob, globExpectedErr, hg, h, hsnd.symm]
        · simp [ParseGlob, hg, h]
      | none =>
        have hs : st.isSome := by
          have h2 := parseGlobLoop_ok_isSome env f rest tpl (by rw [h])
          rwa [h] at h2
        have hne : st ≠ none := Option.ne_none_iff_isSome.mpr hs
        refine ⟨?_, ?_⟩
        · simp [ParseGlob, globExpectedErr, hg, h, hsnd.symm]
        · simp [ParseGlob, hg, h, hne]

/-- C10: ParseGlob is not atomic in its caller-supplied set: when a
non-nil template set is passed in and a later file fails, the
sub-templates of the earlier successfully parsed files remain attached to
the set of the caller (its final state is the fold of those additions) even
though ParseGlob returns a nil template and the error. -/
theorem parseGlob_mutates_caller_set (env : Env) (t0 : GoTpl) (pattern : String)
    (pre : List String) (f : String) (post : List String) (e : GoErr)
    (hglob : env.glob pattern = Except.ok (pre ++ f :: post))
    (hpre : ∀ g ∈ pre, fileError env g = none)
    (hf : fileError env f = some e) :
    (ParseGlob env (some t0) pattern).ret = none ∧
    (ParseGlob env (some t0) pattern).err = some e ∧
    (ParseGlob env (some t0) pattern).state = some (pre.foldl (addFile env) t0) := by
  have hne : (pre ++ f :: post).isEmpty = false := by
    cases pre <;> rfl
  have hloop : parseGlobLoop env (some t0) (pre ++ f :: post)
      = parseGlobLoop env (some (pre.foldl (addFile env) t0)) (f :: post) :=
    parseGlobLoop_front_ok env pre t0 (f :: post) hpre
  have hstep : parseGlobLoop env (some (pre.foldl (addFile env) t0)) (f :: post)
      = (some (pre.foldl (addFile env) t0), some e) := by
    cases hr : env.read f with
    | error e' =>
      simp only [fileError, hr, Option.some.injEq] at hf
      simp [parseGlobLoop, hr, hf]
    | ok b =>
      cases hp : env.parse (Strip b) with
      | none => simp [fileError, hr, hp] at hf
      | some e' =>
        simp only [fileError, hr, hp, Option.map_some', Option.some.injEq] at hf
        simp [parseGlobLoop, hr, hp, hf]
  refine ⟨?_, ?_, ?_⟩ <;> simp [ParseGlob, hglob, hne, hloop, hstep]

/-- Witness for C10: the first file parses, the second fails, and the
set of the caller keeps the first sub-template while ParseGlob returns nil and
the parse error. -/
theorem parseGlob_mutates_caller_set_witness :
    (ParseGlob envC10 (some { name := "root", subs := [] }) "p").ret = none ∧
    (ParseGlob envC10 (some { name := "root", subs := [] }) "p").err
      = some (GoErr.parseErr "parse fail") ∧
    (ParseGlob envC10 (some { name := "root", subs := [] }) "p").state
      = some { name := "root", subs := [("a.tpl", "hello")] } := by
  have h := parseGlob_mutates_caller_set envC10 { name := "root", subs := [] } "p"
    ["a.tpl"] "bad.tpl" [] (GoErr.parseErr "parse fail") rfl (by decide) rfl
  exact ⟨h.1, h.2.1, h.2.2.trans (by decide)⟩

end Tplutil
